import Mathlib

/-!
Verification of the osu-table downloader core (`src/osutableGUI.py`) as a
shallow embedding: catalog normalization (level-range filter, dedup by md5),
missing-set resolution against the local inventory, the sequential download
engine with its skip/sanity policy and progress callbacks, and the `.osz`
archive extractor.  File-system and network effects are made explicit: the
download directory is an association list of file names to byte sizes, and the
network is an oracle assigning each work item the behaviour of its HTTP fetch.
-/

set_option autoImplicit false

namespace OsuTable

/-- A catalog entry, as consumed from the JSON tables.  `md5` and `level` are
optional because the code reads them with `dict.get`; `level` holds the result
of `float(...)` on the raw value (`none` when the field is missing or does not
parse as a number), modelled over `Rat`. -/
structure MapItem where
  title : String
  artist : String
  url : String
  md5 : Option String
  level : Option Rat
deriving DecidableEq

/-- The constant `NERINYAN_BASE` from the configuration section. -/
def NERINYAN_BASE : String := "https://api.nerinyan.moe/d/"

/-- The table `JSON_URLS` from the configuration section. -/
def JSON_URLS : List (String × String) :=
  [("7K + 8K", "https://air-afother.github.io/osu-table/osu_mania_7k_8k_final.json"),
   ("4K", "https://air-afother.github.io/osu-table/osu_mania_4k_final.json")]

/-- Characters removed by `sanitize_filename` (the class `[\\/*?:"<>|]`). -/
def invalidFilenameChars : List Char := ['\\', '/', '*', '?', ':', '"', '<', '>', '|']

/-- Function `sanitize_filename`: remove invalid characters from filenames. -/
def sanitize_filename (name : String) : String :=
  ⟨name.toList.filter (fun c => ¬ c ∈ invalidFilenameChars)⟩

/-- Attempt to match the regex `beatmapsets/(\d+)` at the head of `cs`:
requires the literal `beatmapsets/` followed by at least one digit, and
captures the maximal digit run (greedy `\d+`). -/
def matchBeatmapsetsAt (cs : List Char) : Option (List Char) :=
  if "beatmapsets/".toList.isPrefixOf cs then
    let ds := (cs.drop 12).takeWhile Char.isDigit
    if ds.isEmpty then none else some ds
  else none

/-- The search of `re.search` for `beatmapsets/(\d+)`: try each start position left to
right and return the first (leftmost) match's captured digits. -/
def searchBeatmapsets : List Char → Option (List Char)
  | [] => none
  | c :: rest =>
    match matchBeatmapsetsAt (c :: rest) with
    | some ds => some ds
    | none => searchBeatmapsets rest

/-- Function `extract_beatmapset_id`: extract the beatmapset ID from an osu URL, or
`none` when the pattern does not occur. -/
def extract_beatmapset_id (url : String) : Option String :=
  (searchBeatmapsets url.toList).map (fun ds => ⟨ds⟩)

/-- The derived target filename
`f"{sanitize_filename(m['title'])} - {sanitize_filename(m['artist'])} [{beatmapset_id}].osz"`. -/
def targetFilename (m : MapItem) (beatmapset_id : String) : String :=
  sanitize_filename m.title ++ " - " ++ sanitize_filename m.artist ++
    " [" ++ beatmapset_id ++ "].osz"

/-! ### Download engine -/

/-- The download directory: file names paired with their sizes in bytes.
A new write is consed on the front, so `List.lookup` sees the latest
version, matching `open(filepath, "wb")` truncating semantics. -/
abbrev DirFS := List (String × Nat)

/-- The check `os.path.exists` on the modelled download directory. -/
def fsExists (fs : DirFS) (name : String) : Bool :=
  (fs.lookup name).isSome

/-- How the streaming of one response body goes. -/
inductive StreamOutcome where
  /-- The full body arrives; `size` bytes end up in the file. -/
  | complete (size : Nat)
  /-- A transport error strikes after `written` bytes were written to the
  already-opened file. -/
  | interrupted (written : Nat)
deriving DecidableEq

/-- The behaviour of `requests.get(download_url, stream=True, ...)` for one
item.  `raiseEarly` covers every exception before the output file is opened
(connection failure, timeout, `raise_for_status` on an HTTP error status).
`resp` is a success status together with the declared `content-length` header
(`none` when absent) and the behaviour of the body stream. -/
inductive FetchBehavior where
  | raiseEarly
  | resp (contentLength : Option Nat) (stream : StreamOutcome)
deriving DecidableEq

/-- Per-item download outcomes (spec §3 `DownloadOutcome`), classifying the
disjoint code paths of the loop body of `download_missing_maps`. -/
inductive DownloadOutcome where
  | Fetched
  | SkippedExisting
  | SkippedNoAssetId
  | SkippedUndersized
  | SkippedError
deriving DecidableEq

/-- Everything one iteration of the download loop produces: the outcome, the
updated directory, the request URLs issued (`requests.get` calls), and the
`done` values passed to `progress_callback`. -/
structure ItemStep where
  outcome : DownloadOutcome
  fs : DirFS
  requests : List String
  calls : List Nat
deriving DecidableEq

/-- One iteration of the loop body of `download_missing_maps`, given the
directory contents, the number of items already counted (`done`), the item
and the network behaviour for it.  Mirrors the source line by line: missing
asset id, existing file, the `total_length = int(... or 0)` guard with the
`total_length and total_length < 200_000` test, streaming, and the
`except Exception: pass` absorption. -/
def processItem (fs : DirFS) (done : Nat) (m : MapItem) (beh : FetchBehavior) : ItemStep :=
  match extract_beatmapset_id m.url with
  | none => ⟨.SkippedNoAssetId, fs, [], [done + 1]⟩
  | some beatmapset_id =>
    let download_url := NERINYAN_BASE ++ beatmapset_id
    let filename := targetFilename m beatmapset_id
    if fsExists fs filename then ⟨.SkippedExisting, fs, [], [done + 1]⟩
    else
      match beh with
      | .raiseEarly => ⟨.SkippedError, fs, [download_url], [done + 1]⟩
      | .resp contentLength stream =>
        let total_length := contentLength.getD 0
        if total_length ≠ 0 ∧ total_length < 200000 then
          ⟨.SkippedUndersized, fs, [download_url], [done + 1]⟩
        else
          match stream with
          | .complete size =>
            ⟨.Fetched, (filename, size) :: fs, [download_url], [done + 1]⟩
          | .interrupted written =>
            ⟨.SkippedError, (filename, written) :: fs, [download_url], [done + 1]⟩

/-- The accumulated result of a download run. -/
structure RunResult where
  outcomes : List DownloadOutcome
  fs : DirFS
  requests : List String
  calls : List Nat
deriving DecidableEq

/-- The loop of `download_missing_maps`, threading the directory state and
the `done` counter through the items; each item carries the behaviour of its
fetch. -/
def runLoop (fs : DirFS) (done : Nat) : List (MapItem × FetchBehavior) → RunResult
  | [] => ⟨[], fs, [], []⟩
  | (m, beh) :: rest =>
    let s := processItem fs done m beh
    let r := runLoop s.fs (done + 1) rest
    ⟨s.outcome :: r.outcomes, r.fs, s.requests ++ r.requests, s.calls ++ r.calls⟩

/-- Function `download_missing_maps`: run the whole worklist against the directory,
starting with `done = 0`. -/
def download_missing_maps (missing_maps : List (MapItem × FetchBehavior)) (fs : DirFS) :
    RunResult :=
  runLoop fs 0 missing_maps

/-! ### Catalog normalization and missing-set resolution (`start_download`) -/

/-- The per-table range filter: keep items whose `level` parses
(`float(lvl_str)` succeeds, i.e. `level = some lvl`) and satisfies
`min_i <= lvl <= max_i`; items whose level is missing or unparsable hit the
`except: continue` and are dropped. -/
def filterLevel (maps : List MapItem) (min_i max_i : Int) : List MapItem :=
  maps.filter (fun m =>
    match m.level with
    | none => false
    | some lvl => decide ((min_i : Rat) ≤ lvl ∧ lvl ≤ (max_i : Rat)))

/-- Python truthiness of the md5 field: `not md` holds for a missing key and
for the empty string. -/
def md5Truthy : Option String → Bool
  | none => false
  | some s => ¬ s = ""

/-- The dedup loop over `combined_maps`: skip items with falsy md5 or an
md5 already in `seen_md5`, otherwise record the md5 and keep the item. -/
def dedupLoop (seen_md5 : List String) : List MapItem → List MapItem
  | [] => []
  | m :: rest =>
    match m.md5 with
    | none => dedupLoop seen_md5 rest
    | some md =>
      if md = "" ∨ md ∈ seen_md5 then dedupLoop seen_md5 rest
      else m :: dedupLoop (md :: seen_md5) rest

/-- The list `unique_maps`: deduplicate `combined_maps` by md5, keeping the first
occurrence. -/
def dedupByMd5 (combined_maps : List MapItem) : List MapItem :=
  dedupLoop [] combined_maps

/-- The predicate of `missing_maps = [m for m in unique_maps if m.get("md5")
not in existing_md5]`: `None not in <set of strings>` is true, so an item
without md5 would be kept (vacuous after dedup, which drops such items). -/
def notInInventory (existing_md5 : List String) (m : MapItem) : Bool :=
  match m.md5 with
  | none => true
  | some md => ¬ md ∈ existing_md5

/-- The list `missing_maps`: the resolved worklist. -/
def missingMaps (unique_maps : List MapItem) (existing_md5 : List String) : List MapItem :=
  unique_maps.filter (notInInventory existing_md5)

/-- Function `get_existing_md5`: when the database file is missing the function shows
an error dialog and returns the empty set; otherwise it returns the md5
column of the `song` table (here the query result is passed in as a list of
hashes). -/
def get_existing_md5 (dbExists : Bool) (dbHashes : List String) : List String :=
  if dbExists then dbHashes else []

/-- The range for a table: `level_ranges_int.get(table, (0, 20))`. -/
def rangeFor (level_ranges_int : List (String × Int × Int)) (table : String) : Int × Int :=
  (level_ranges_int.lookup table).getD (0, 20)

/-- The catalog-collection loop of `start_download`: for each selected table,
look its URL up in `JSON_URLS` (an unknown table is skipped), fetch the map
list (`fetch url = none` models `get_all_maps` raising, which aborts the
run), filter by that table's range, and append.  Returns the combined list
together with the URLs fetched, or `none` when a fetch failed. -/
def collectMaps (fetch : String → Option (List MapItem))
    (level_ranges_int : List (String × Int × Int)) :
    List String → Option (List MapItem × List String)
  | [] => some ([], [])
  | table :: rest =>
    match JSON_URLS.lookup table with
    | none => collectMaps fetch level_ranges_int rest
    | some url =>
      match fetch url with
      | none => none
      | some maps =>
        match collectMaps fetch level_ranges_int rest with
        | none => none
        | some (ms, urls) =>
          some (filterLevel maps (rangeFor level_ranges_int table).1
                  (rangeFor level_ranges_int table).2 ++ ms, url :: urls)

/-- How a pipeline run ends, before the download engine output itself. -/
inductive PipelineResult where
  /-- The gate `if not existing_md5: return` — empty inventory aborts the run. -/
  | abortedNoInventory
  /-- A `get_all_maps` failure aborts the run. -/
  | abortedFetchError
  /-- The case `total_missing == 0`: nothing to do. -/
  | nothingToDo
  /-- The user declined the confirmation dialog. -/
  | cancelled
  /-- The run proceeds; the download engine receives this worklist. -/
  | ran (worklist : List MapItem)
deriving DecidableEq

/-- The control flow of `start_download` up to invoking the download engine:
inventory gate, catalog collection with range filtering, dedup, missing-set
resolution, empty-worklist gate and confirmation gate.  The second component
is the list of catalog URLs that were fetched. -/
def start_download (dbExists : Bool) (dbHashes : List String)
    (selected_tables : List String) (fetch : String → Option (List MapItem))
    (level_ranges_int : List (String × Int × Int)) (confirm : Bool) :
    PipelineResult × List String :=
  let existing_md5 := get_existing_md5 dbExists dbHashes
  if existing_md5.isEmpty then (.abortedNoInventory, [])
  else
    match collectMaps fetch level_ranges_int selected_tables with
    | none => (.abortedFetchError, [])
    | some (combined_maps, urls) =>
      let unique_maps := dedupByMd5 combined_maps
      let missing_maps := missingMaps unique_maps existing_md5
      if missing_maps.isEmpty then (.nothingToDo, urls)
      else if confirm then (.ran missing_maps, urls)
      else (.cancelled, urls)

/-! ### Archive extraction (`extract_osz_files`) -/

/-- The test `f.lower().endswith(".osz")`. -/
def isOszName (f : String) : Bool :=
  String.endsWith f.toLower ".osz"

/-- The root part of `os.path.splitext`: split at the last dot, provided some
character strictly before that dot is not itself a dot (leading dots alone
never start an extension). -/
def splitextRoot (f : String) : String :=
  let cs := f.toList
  match ((List.range cs.length).filter (fun i =>
      cs.getD i ' ' = '.' ∧ (cs.take i).any (fun c => ¬ c = '.'))).getLast? with
  | some i => ⟨cs.take i⟩
  | none => f

/-- The extraction pass: for each archive, `zipfile.ZipFile(...).extractall`
into the folder named after the archive's stem; `extractOK` says whether the
archive is valid, a corrupt one raises and is skipped (`except: pass`),
creating no folder.  Returns the folders created, in order. -/
def extractPass (extractOK : String → Bool) : List String → List String
  | [] => []
  | osz_file :: rest =>
    if extractOK osz_file then splitextRoot osz_file :: extractPass extractOK rest
    else extractPass extractOK rest

/-- The deletion pass: `os.remove` each archive of the snapshot; a missing
file raises and is ignored (`except: pass`), so each step erases at most one
occurrence. -/
def deletePass (files : List String) : List String → List String
  | [] => files
  | osz_file :: rest => deletePass (files.erase osz_file) rest

/-- The result of `extract_osz_files` on the modelled directory: the files
remaining and the extraction folders created.  Folders live in a separate
component: `os.listdir` would see them, but the deletion pass iterates over
the `osz_files` snapshot taken before extraction, never over a fresh
listing. -/
structure ExtractResult where
  files : List String
  folders : List String
deriving DecidableEq

/-- Function `extract_osz_files`: snapshot the `.osz` files in the directory, run the
full extraction pass, then (only when `delete_after`) run the deletion pass
over the same snapshot. -/
def extract_osz_files (files : List String) (extractOK : String → Bool)
    (delete_after : Bool) : ExtractResult :=
  let osz_files := files.filter isOszName
  let folders := extractPass extractOK osz_files
  if delete_after then ⟨deletePass files osz_files, folders⟩
  else ⟨files, folders⟩

/-! ### Helper lemmas about the download engine -/

theorem processItem_noId (fs : DirFS) (done : Nat) (m : MapItem) (beh : FetchBehavior)
    (h : extract_beatmapset_id m.url = none) :
    processItem fs done m beh = ⟨.SkippedNoAssetId, fs, [], [done + 1]⟩ := by
  simp [processItem, h]

theorem processItem_existing (fs : DirFS) (done : Nat) (m : MapItem) (beh : FetchBehavior)
    (beatmapset_id : String) (hid : extract_beatmapset_id m.url = some beatmapset_id)
    (hex : fsExists fs (targetFilename m beatmapset_id) = true) :
    processItem fs done m beh = ⟨.SkippedExisting, fs, [], [done + 1]⟩ := by
  simp [processItem, hid, hex]

theorem processItem_calls (fs : DirFS) (done : Nat) (m : MapItem) (beh : FetchBehavior) :
    (processItem fs done m beh).calls = [done + 1] := by
  cases hid : extract_beatmapset_id m.url with
  | none => simp [processItem, hid]
  | some beatmapset_id =>
    by_cases hex : fsExists fs (targetFilename m beatmapset_id)
    · simp [processItem, hid, hex]
    · cases beh with
      | raiseEarly => simp [processItem, hid, hex]
      | resp contentLength stream =>
        by_cases hcl : contentLength.getD 0 ≠ 0 ∧ contentLength.getD 0 < 200000
        · simp [processItem, hid, hex, hcl]
        · cases stream <;> simp [processItem, hid, hex, hcl]

theorem processItem_not_fetched (fs : DirFS) (done : Nat) (m : MapItem) (beh : FetchBehavior)
    (herr : beh = .raiseEarly ∨ ∃ cl w, beh = .resp cl (.interrupted w)) :
    ¬ (processItem fs done m beh).outcome = .Fetched := by
  cases hid : extract_beatmapset_id m.url with
  | none => simp [processItem, hid]
  | some beatmapset_id =>
    by_cases hex : fsExists fs (targetFilename m beatmapset_id)
    · simp [processItem, hid, hex]
    · rcases herr with h | ⟨cl, w, h⟩ <;> subst h
      · simp [processItem, hid, hex]
      · by_cases hcl : cl.getD 0 ≠ 0 ∧ cl.getD 0 < 200000 <;>
          simp [processItem, hid, hex, hcl]

theorem runLoop_length (items : List (MapItem × FetchBehavior)) :
    ∀ fs done, (runLoop fs done items).outcomes.length = items.length := by
  induction items with
  | nil => intro fs done; rfl
  | cons p rest ih =>
    intro fs done
    cases p with
    | mk m beh => simp [runLoop, ih]

theorem runLoop_calls (items : List (MapItem × FetchBehavior)) :
    ∀ fs done, (runLoop fs done items).calls = List.range' (done + 1) items.length := by
  induction items with
  | nil => intro fs done; rfl
  | cons p rest ih =>
    intro fs done
    cases p with
    | mk m beh =>
      simp [runLoop, processItem_calls, ih, List.range'_succ]

theorem runLoop_append (l1 l2 : List (MapItem × FetchBehavior)) :
    ∀ fs done, runLoop fs done (l1 ++ l2) =
      ⟨(runLoop fs done l1).outcomes ++
         (runLoop (runLoop fs done l1).fs (done + l1.length) l2).outcomes,
       (runLoop (runLoop fs done l1).fs (done + l1.length) l2).fs,
       (runLoop fs done l1).requests ++
         (runLoop (runLoop fs done l1).fs (done + l1.length) l2).requests,
       (runLoop fs done l1).calls ++
         (runLoop (runLoop fs done l1).fs (done + l1.length) l2).calls⟩ := by
  induction l1 with
  | nil => intro fs done; simp [runLoop]
  | cons p rest ih =>
    intro fs done
    cases p with
    | mk m beh =>
      have harith : done + 1 + rest.length = done + (rest.length + 1) := by omega
      simp only [List.cons_append, runLoop, List.append_eq, ih, List.length_cons, harith,
        List.append_assoc]

/-! ### Claim theorems: download engine -/

/-- Claim C1 (counterexample): the claim quantifies over every response that
declares a content length.  A response declaring `content-length: 0` declares
a length below 200,000, yet the code computes `int("0" or 0) = 0`, the guard
`total_length and total_length < 200_000` is falsy, and the item streams: the
outcome is `Fetched`, not `SkippedUndersized`, and a (zero-byte) file is
written under the target directory. -/
theorem undersized_zero_declared_length_counterexample :
    (0 : Nat) < 200000 ∧
    (processItem [] 0 ⟨"t", "a", "beatmapsets/7", some "h", none⟩
        (.resp (some 0) (.complete 0))).outcome = .Fetched ∧
    ¬ (processItem [] 0 ⟨"t", "a", "beatmapsets/7", some "h", none⟩
        (.resp (some 0) (.complete 0))).outcome = .SkippedUndersized ∧
    fsExists (processItem [] 0 ⟨"t", "a", "beatmapsets/7", some "h", none⟩
        (.resp (some 0) (.complete 0))).fs
      (targetFilename ⟨"t", "a", "beatmapsets/7", some "h", none⟩ "7") = true := by
  decide

/-- Claim C1 (amended): for a work item with an asset id and no existing target
file, a response declaring a *positive* content length below 200,000 bytes
yields `SkippedUndersized` and leaves the directory unchanged (no file
written); a declared length of at least 200,000 with a successful stream of
that many bytes yields `Fetched` and writes a file of that size under the
target directory. -/
theorem content_length_policy (fs : DirFS) (done : Nat) (m : MapItem)
    (contentLength : Nat) (stream : StreamOutcome) (beatmapset_id : String)
    (hid : extract_beatmapset_id m.url = some beatmapset_id)
    (hne : fsExists fs (targetFilename m beatmapset_id) = false) :
    (0 < contentLength → contentLength < 200000 →
      processItem fs done m (.resp (some contentLength) stream) =
        ⟨.SkippedUndersized, fs, [NERINYAN_BASE ++ beatmapset_id], [done + 1]⟩) ∧
    (200000 ≤ contentLength →
      processItem fs done m (.resp (some contentLength) (.complete contentLength)) =
        ⟨.Fetched, (targetFilename m beatmapset_id, contentLength) :: fs,
          [NERINYAN_BASE ++ beatmapset_id], [done + 1]⟩) := by
  constructor
  · intro h1 h2
    unfold processItem
    rw [hid]
    dsimp only
    rw [hne]
    simp only [Bool.false_eq_true, if_false]
    rw [if_pos]
    simp only [Option.getD_some]
    omega
  · intro h
    unfold processItem
    rw [hid]
    dsimp only
    rw [hne]
    simp only [Bool.false_eq_true, if_false]
    rw [if_neg]
    simp only [Option.getD_some]
    omega

/-- Claim C1 (witness): a declared length of 150,000 is skipped as undersized
with nothing written; a declared length of 250,000 with a successful stream
writes a 250,000-byte file. -/
theorem content_length_policy_witness :
    processItem [] 0 ⟨"t", "a", "beatmapsets/7", some "h", none⟩
        (.resp (some 150000) (.complete 150000)) =
      ⟨.SkippedUndersized, [], [NERINYAN_BASE ++ "7"], [1]⟩ ∧
    processItem [] 0 ⟨"t", "a", "beatmapsets/7", some "h", none⟩
        (.resp (some 250000) (.complete 250000)) =
      ⟨.Fetched, [(targetFilename ⟨"t", "a", "beatmapsets/7", some "h", none⟩ "7", 250000)],
        [NERINYAN_BASE ++ "7"], [1]⟩ :=
  ⟨(content_length_policy [] 0 ⟨"t", "a", "beatmapsets/7", some "h", none⟩ 150000
      (.complete 150000) "7" (by decide) (by decide)).1 (by decide) (by decide),
   (content_length_policy [] 0 ⟨"t", "a", "beatmapsets/7", some "h", none⟩ 250000
      (.complete 250000) "7" (by decide) (by decide)).2 (by decide)⟩

/-- Claim C2: the engine invokes the progress callback exactly once per work
item — fetched or skipped for any reason — with `completed` taking the values
`1, 2, ..., total` in order, and (on a non-empty worklist) `completed = total`
occurring exactly once in the run. -/
theorem progress_called_once_per_item (missing_maps : List (MapItem × FetchBehavior))
    (fs : DirFS) :
    (download_missing_maps missing_maps fs).calls = List.range' 1 missing_maps.length ∧
    (0 < missing_maps.length →
      (download_missing_maps missing_maps fs).calls.count missing_maps.length = 1) := by
  have h := runLoop_calls missing_maps fs 0
  simp only [Nat.zero_add] at h
  refine ⟨h, fun hpos => ?_⟩
  rw [download_missing_maps, h]
  exact List.count_eq_one_of_mem (List.nodup_range' 1 missing_maps.length)
    (List.mem_range'_1.2 ⟨hpos, by omega⟩)

/-- Claim C2 (witness): on a two-item worklist (one erroring, one skipped for a
missing asset id) the callback sees `completed = 1, 2` and reaches 2 once. -/
theorem progress_called_once_per_item_witness :
    (download_missing_maps
        [((⟨"t", "a", "beatmapsets/1", some "h", none⟩ : MapItem), .raiseEarly),
         ((⟨"t2", "a2", "no id here", some "h2", none⟩ : MapItem), .raiseEarly)] []).calls =
      List.range' 1 2 ∧
    (download_missing_maps
        [((⟨"t", "a", "beatmapsets/1", some "h", none⟩ : MapItem), .raiseEarly),
         ((⟨"t2", "a2", "no id here", some "h2", none⟩ : MapItem), .raiseEarly)] []).calls.count 2 = 1 :=
  ⟨(progress_called_once_per_item
      [((⟨"t", "a", "beatmapsets/1", some "h", none⟩ : MapItem), .raiseEarly),
       ((⟨"t2", "a2", "no id here", some "h2", none⟩ : MapItem), .raiseEarly)] []).1,
   (progress_called_once_per_item
      [((⟨"t", "a", "beatmapsets/1", some "h", none⟩ : MapItem), .raiseEarly),
       ((⟨"t2", "a2", "no id here", some "h2", none⟩ : MapItem), .raiseEarly)] []).2 (by decide)⟩

/-- Claim C3: a transport error on one work item (an exception before the file
is opened, or mid-stream) is absorbed into that item's outcome: the run is a
total function whose outcome sequence decomposes around the erroring item,
every remaining item is still processed (one outcome per item), and the
erroring item is never reported as `Fetched`. -/
theorem transport_error_absorbed (pre post : List (MapItem × FetchBehavior)) (m : MapItem)
    (beh : FetchBehavior) (fs : DirFS)
    (herr : beh = .raiseEarly ∨ ∃ cl w, beh = .resp cl (.interrupted w)) :
    (download_missing_maps (pre ++ (m, beh) :: post) fs).outcomes =
      (runLoop fs 0 pre).outcomes ++
        (processItem (runLoop fs 0 pre).fs pre.length m beh).outcome ::
          (runLoop (processItem (runLoop fs 0 pre).fs pre.length m beh).fs
            (pre.length + 1) post).outcomes ∧
    (download_missing_maps (pre ++ (m, beh) :: post) fs).outcomes.length =
      pre.length + 1 + post.length ∧
    ¬ (processItem (runLoop fs 0 pre).fs pre.length m beh).outcome = .Fetched := by
  refine ⟨?_, ?_, processItem_not_fetched _ _ _ _ herr⟩
  · rw [download_missing_maps, runLoop_append]
    simp [runLoop]
  · rw [download_missing_maps, runLoop_length]
    simp only [List.length_append, List.length_cons]
    omega

/-- Claim C3 (witness): a run whose first item errors early still processes the
second item and yields two outcomes. -/
theorem transport_error_absorbed_witness :
    (download_missing_maps
        [((⟨"t", "a", "beatmapsets/9", some "h", none⟩ : MapItem), .raiseEarly),
         ((⟨"t2", "a2", "beatmapsets/8", some "h2", none⟩ : MapItem), .raiseEarly)] []).outcomes.length = 2 :=
  (transport_error_absorbed []
    [((⟨"t2", "a2", "beatmapsets/8", some "h2", none⟩ : MapItem), .raiseEarly)]
    ⟨"t", "a", "beatmapsets/9", some "h", none⟩ .raiseEarly [] (Or.inl rfl)).2.1

/-- Claim C7: a work item whose derived target filename already exists under the
target directory yields `SkippedExisting`, issues no network request, and
leaves the directory unchanged. -/
theorem existing_target_skips_without_request (fs : DirFS) (done : Nat) (m : MapItem)
    (beh : FetchBehavior) (beatmapset_id : String)
    (hid : extract_beatmapset_id m.url = some beatmapset_id)
    (hex : fsExists fs (targetFilename m beatmapset_id) = true) :
    processItem fs done m beh = ⟨.SkippedExisting, fs, [], [done + 1]⟩ :=
  processItem_existing fs done m beh beatmapset_id hid hex

/-- Claim C7 (witness): with `t - a [5].osz` already on disk, the item for
beatmapset 5 is skipped with no request, whatever the network would do. -/
theorem existing_target_skips_without_request_witness :
    processItem [("t - a [5].osz", 100)] 0 ⟨"t", "a", "beatmapsets/5", some "h", none⟩
        (.resp (some 500000) (.complete 500000)) =
      ⟨.SkippedExisting, [("t - a [5].osz", 100)], [], [1]⟩ :=
  existing_target_skips_without_request [("t - a [5].osz", 100)] 0
    ⟨"t", "a", "beatmapsets/5", some "h", none⟩ (.resp (some 500000) (.complete 500000)) "5"
    (by decide) (by decide)

/-- Claim C10: a transport error striking after the output file was opened
leaves the partially written file on disk at the target filename (the
`except` branch does not remove it), and a subsequent attempt at the same
item finds the file and yields `SkippedExisting` with no network request. -/
theorem midstream_error_keeps_partial_file (fs : DirFS) (done done2 : Nat) (m : MapItem)
    (contentLength : Option Nat) (written : Nat) (beh2 : FetchBehavior)
    (beatmapset_id : String)
    (hid : extract_beatmapset_id m.url = some beatmapset_id)
    (hne : fsExists fs (targetFilename m beatmapset_id) = false)
    (hcl : ¬ (contentLength.getD 0 ≠ 0 ∧ contentLength.getD 0 < 200000)) :
    processItem fs done m (.resp contentLength (.interrupted written)) =
      ⟨.SkippedError, (targetFilename m beatmapset_id, written) :: fs,
        [NERINYAN_BASE ++ beatmapset_id], [done + 1]⟩ ∧
    fsExists ((targetFilename m beatmapset_id, written) :: fs)
      (targetFilename m beatmapset_id) = true ∧
    processItem ((targetFilename m beatmapset_id, written) :: fs) done2 m beh2 =
      ⟨.SkippedExisting, (targetFilename m beatmapset_id, written) :: fs, [], [done2 + 1]⟩ := by
  have hex : fsExists ((targetFilename m beatmapset_id, written) :: fs)
      (targetFilename m beatmapset_id) = true := by
    simp [fsExists, List.lookup]
  refine ⟨?_, hex, processItem_existing _ _ _ _ _ hid hex⟩
  simp [processItem, hid, hne, hcl]

/-- Claim C10 (witness): an interrupted stream for beatmapset 3 leaves a
5-byte partial file, and retrying the item skips it as existing. -/
theorem midstream_error_keeps_partial_file_witness :
    processItem [] 0 ⟨"t", "a", "beatmapsets/3", some "h", none⟩
        (.resp (some 300000) (.interrupted 5)) =
      ⟨.SkippedError,
        [(targetFilename ⟨"t", "a", "beatmapsets/3", some "h", none⟩ "3", 5)],
        [NERINYAN_BASE ++ "3"], [1]⟩ ∧
    fsExists [(targetFilename ⟨"t", "a", "beatmapsets/3", some "h", none⟩ "3", 5)]
      (targetFilename ⟨"t", "a", "beatmapsets/3", some "h", none⟩ "3") = true ∧
    processItem [(targetFilename ⟨"t", "a", "beatmapsets/3", some "h", none⟩ "3", 5)] 0
        ⟨"t", "a", "beatmapsets/3", some "h", none⟩ (.resp (some 300000) (.complete 300000)) =
      ⟨.SkippedExisting,
        [(targetFilename ⟨"t", "a", "beatmapsets/3", some "h", none⟩ "3", 5)], [], [1]⟩ :=
  midstream_error_keeps_partial_file [] 0 0 ⟨"t", "a", "beatmapsets/3", some "h", none⟩
    (some 300000) 5 (.resp (some 300000) (.complete 300000)) "3"
    (by decide) (by decide) (by decide)

/-! ### Helper lemmas about dedup -/

theorem dedupLoop_sublist (l : List MapItem) :
    ∀ seen, List.Sublist (dedupLoop seen l) l := by
  induction l with
  | nil => intro seen; simp [dedupLoop]
  | cons m0 rest ih =>
    intro seen
    cases hm0 : m0.md5 with
    | none =>
      simp only [dedupLoop, hm0]
      exact (ih seen).cons m0
    | some md =>
      by_cases hc : md = "" ∨ md ∈ seen
      · simp only [dedupLoop, hm0, if_pos hc]
        exact (ih seen).cons m0
      · simp only [dedupLoop, hm0, if_neg hc]
        exact (ih (md :: seen)).cons₂ m0

theorem dedupLoop_mem_spec (l : List MapItem) :
    ∀ seen m, m ∈ dedupLoop seen l →
      ∃ h, m.md5 = some h ∧ ¬ h = "" ∧ ¬ h ∈ seen ∧
        l.find? (fun x => x.md5 == m.md5) = some m := by
  induction l with
  | nil => intro seen m hm; simp [dedupLoop] at hm
  | cons m0 rest ih =>
    intro seen m hm
    cases hm0 : m0.md5 with
    | none =>
      simp only [dedupLoop, hm0] at hm
      obtain ⟨h, h1, h2, h3, h4⟩ := ih seen m hm
      have hbeq : (m0.md5 == m.md5) = false := by
        rw [hm0, h1]; rfl
      exact ⟨h, h1, h2, h3, by rw [List.find?_cons, hbeq]; exact h4⟩
    | some md =>
      by_cases hc : md = "" ∨ md ∈ seen
      · simp only [dedupLoop, hm0, if_pos hc] at hm
        obtain ⟨h, h1, h2, h3, h4⟩ := ih seen m hm
        have hne : ¬ md = h := by
          rcases hc with hc | hc
          · intro e; exact h2 (by rw [← e, hc])
          · intro e; exact h3 (e ▸ hc)
        have hbeq : (m0.md5 == m.md5) = false := by
          rw [hm0, h1]
          exact beq_eq_false_iff_ne.2 (by simp [hne])
        exact ⟨h, h1, h2, h3, by rw [List.find?_cons, hbeq]; exact h4⟩
      · simp only [dedupLoop, hm0, if_neg hc] at hm
        rw [not_or] at hc
        rcases List.mem_cons.1 hm with rfl | hm'
        · refine ⟨md, hm0, hc.1, hc.2, ?_⟩
          rw [List.find?_cons]
          simp
        · obtain ⟨h, h1, h2, h3, h4⟩ := ih (md :: seen) m hm'
          have h3' : ¬ h ∈ seen := fun hin => h3 (List.mem_cons_of_mem md hin)
          have hne : ¬ md = h := fun e => h3 (e ▸ List.mem_cons_self md seen)
          have hbeq : (m0.md5 == m.md5) = false := by
            rw [hm0, h1]
            exact beq_eq_false_iff_ne.2 (by simp [hne])
          exact ⟨h, h1, h2, h3', by rw [List.find?_cons, hbeq]; exact h4⟩

theorem dedupLoop_pairwise (l : List MapItem) :
    ∀ seen, List.Pairwise (fun a b => ¬ a.md5 = b.md5) (dedupLoop seen l) := by
  induction l with
  | nil => intro seen; simp [dedupLoop]
  | cons m0 rest ih =>
    intro seen
    cases hm0 : m0.md5 with
    | none =>
      simp only [dedupLoop, hm0]
      exact ih seen
    | some md =>
      by_cases hc : md = "" ∨ md ∈ seen
      · simp only [dedupLoop, hm0, if_pos hc]
        exact ih seen
      · simp only [dedupLoop, hm0, if_neg hc]
        refine List.Pairwise.cons ?_ (ih (md :: seen))
        intro b hb
        obtain ⟨h, h1, -, h3, -⟩ := dedupLoop_mem_spec rest (md :: seen) b hb
        rw [hm0, h1]
        intro e
        injection e with e'
        exact h3 (e' ▸ List.mem_cons_self md seen)

theorem dedupLoop_complete (l : List MapItem) :
    ∀ seen m h, m ∈ l → m.md5 = some h → ¬ h = "" →
      h ∈ seen ∨ ∃ m2, m2 ∈ dedupLoop seen l ∧ m2.md5 = some h := by
  induction l with
  | nil => intro seen m h hm; simp at hm
  | cons m0 rest ih =>
    intro seen m h hm hmd hne
    rcases List.mem_cons.1 hm with rfl | hm'
    · by_cases hc : h ∈ seen
      · exact Or.inl hc
      · right
        simp only [dedupLoop, hmd]
        rw [if_neg (by rw [not_or]; exact ⟨hne, hc⟩)]
        exact ⟨m, List.mem_cons_self _ _, hmd⟩
    · cases hm0 : m0.md5 with
      | none =>
        simp only [dedupLoop, hm0]
        exact ih seen m h hm' hmd hne
      | some md =>
        by_cases hc : md = "" ∨ md ∈ seen
        · simp only [dedupLoop, hm0, if_pos hc]
          exact ih seen m h hm' hmd hne
        · simp only [dedupLoop, hm0, if_neg hc]
          rcases ih (md :: seen) m h hm' hmd hne with hin | ⟨m2, hm2, hmd2⟩
          · rcases List.mem_cons.1 hin with rfl | hin'
            · exact Or.inr ⟨m0, List.mem_cons_self _ _, hm0⟩
            · exact Or.inl hin'
          · exact Or.inr ⟨m2, List.mem_cons_of_mem _ hm2, hmd2⟩

/-! ### Claim theorems: normalization and missing-set resolution -/

/-- Claim C5: every item in the normalized (range-filtered) output has a level
that parsed (`level = some lvl`) with `min_i ≤ lvl ≤ max_i` inclusive; items
whose level is missing or unparsable (`level = none`) are silently excluded;
the output is an order-preserving sublist of the input (no error, no
reordering). -/
theorem normalized_levels_in_range (maps : List MapItem) (min_i max_i : Int) :
    List.Sublist (filterLevel maps min_i max_i) maps ∧
    (∀ m, m ∈ filterLevel maps min_i max_i →
      ∃ lvl, m.level = some lvl ∧ (min_i : Rat) ≤ lvl ∧ lvl ≤ (max_i : Rat)) ∧
    (∀ m, m.level = none → ¬ m ∈ filterLevel maps min_i max_i) := by
  refine ⟨List.filter_sublist maps, ?_, ?_⟩
  · intro m hm
    rw [filterLevel, List.mem_filter] at hm
    rcases hm with ⟨-, hp⟩
    cases hlvl : m.level with
    | none => rw [hlvl] at hp; simp at hp
    | some lvl =>
      rw [hlvl] at hp
      exact ⟨lvl, rfl, by simpa using hp⟩
  · intro m hnone hm
    rw [filterLevel, List.mem_filter] at hm
    rcases hm with ⟨-, hp⟩
    rw [hnone] at hp
    simp at hp

/-- Claim C5 (witness): with range 0..13, an item of level 3 passes and its
level is certified in range; an item with missing level is excluded. -/
theorem normalized_levels_in_range_witness :
    (∃ lvl, (⟨"x", "y", "u", some "h", some 3⟩ : MapItem).level = some lvl ∧
      ((0 : Int) : Rat) ≤ lvl ∧ lvl ≤ ((13 : Int) : Rat)) ∧
    ¬ (⟨"x2", "y2", "u2", some "h2", none⟩ : MapItem) ∈ filterLevel
        [⟨"x", "y", "u", some "h", some 3⟩, ⟨"x2", "y2", "u2", some "h2", none⟩] 0 13 :=
  ⟨(normalized_levels_in_range
      [⟨"x", "y", "u", some "h", some 3⟩, ⟨"x2", "y2", "u2", some "h2", none⟩] 0 13).2.1
      ⟨"x", "y", "u", some "h", some 3⟩ (by decide),
   (normalized_levels_in_range
      [⟨"x", "y", "u", some "h", some 3⟩, ⟨"x2", "y2", "u2", some "h2", none⟩] 0 13).2.2
      ⟨"x2", "y2", "u2", some "h2", none⟩ rfl⟩

/-- Claim C6: deduplication over the concatenated catalog sequence yields an
order-preserving sublist in which no two items share an md5; each kept item
is the *first* occurrence of its md5 in input order (`find?` over the input
returns it); and every input item with a truthy md5 is still represented, so
later duplicates are dropped silently rather than erroring. -/
theorem dedup_keeps_first_occurrence (combined_maps : List MapItem) :
    List.Sublist (dedupByMd5 combined_maps) combined_maps ∧
    List.Pairwise (fun a b => ¬ a.md5 = b.md5) (dedupByMd5 combined_maps) ∧
    (∀ m, m ∈ dedupByMd5 combined_maps →
      combined_maps.find? (fun x => x.md5 == m.md5) = some m) ∧
    (∀ m h, m ∈ combined_maps → m.md5 = some h → ¬ h = "" →
      ∃ m2, m2 ∈ dedupByMd5 combined_maps ∧ m2.md5 = some h) := by
  refine ⟨dedupLoop_sublist _ [], dedupLoop_pairwise _ [], ?_, ?_⟩
  · intro m hm
    obtain ⟨h, -, -, -, h4⟩ := dedupLoop_mem_spec combined_maps [] m hm
    exact h4
  · intro m h hm hmd hne
    rcases dedupLoop_complete combined_maps [] m h hm hmd hne with hin | h2
    · simp at hin
    · exact h2

/-- Claim C6 (witness): of two items sharing md5 "h", dedup keeps the first and
the hash is still represented. -/
theorem dedup_keeps_first_occurrence_witness :
    (⟨"first", "a", "u1", some "h", none⟩ : MapItem) ∈
      dedupByMd5 [⟨"first", "a", "u1", some "h", none⟩, ⟨"second", "b", "u2", some "h", none⟩] →
      [(⟨"first", "a", "u1", some "h", none⟩ : MapItem),
       ⟨"second", "b", "u2", some "h", none⟩].find?
        (fun x => x.md5 == (⟨"first", "a", "u1", some "h", none⟩ : MapItem).md5) =
      some ⟨"first", "a", "u1", some "h", none⟩ :=
  (dedup_keeps_first_occurrence
    [⟨"first", "a", "u1", some "h", none⟩, ⟨"second", "b", "u2", some "h", none⟩]).2.2.1
    ⟨"first", "a", "u1", some "h", none⟩

/-- Claim C4: the resolved worklist is exactly the order-preserving subsequence
of the normalized (deduplicated) items whose md5 is absent from the
inventory: it is a sublist of the normalized sequence, and membership is
characterized by membership in the normalized sequence plus absence of the
item's md5 from the inventory. -/
theorem resolve_missing_exact (combined_maps : List MapItem) (existing_md5 : List String) :
    List.Sublist (missingMaps (dedupByMd5 combined_maps) existing_md5)
      (dedupByMd5 combined_maps) ∧
    ∀ m, m ∈ missingMaps (dedupByMd5 combined_maps) existing_md5 ↔
      m ∈ dedupByMd5 combined_maps ∧ ∀ h, m.md5 = some h → ¬ h ∈ existing_md5 := by
  refine ⟨List.filter_sublist _, ?_⟩
  intro m
  rw [missingMaps, List.mem_filter]
  constructor
  · rintro ⟨hmem, hp⟩
    refine ⟨hmem, ?_⟩
    intro h hmd
    simp only [notInInventory, hmd] at hp
    simpa using hp
  · rintro ⟨hmem, hp⟩
    refine ⟨hmem, ?_⟩
    obtain ⟨h, h1, -, -, -⟩ := dedupLoop_mem_spec combined_maps [] m hmem
    simp only [notInInventory, h1]
    simpa using hp h h1

/-- Claim C4 (witness): with the hash h2 alone in the inventory, the item hashed h1 is
resolved as missing and certified absent from the inventory. -/
theorem resolve_missing_exact_witness :
    List.Sublist
      (missingMaps (dedupByMd5 [(⟨"a1", "b1", "u1", some "h1", none⟩ : MapItem),
        ⟨"a2", "b2", "u2", some "h2", none⟩]) ["h2"])
      (dedupByMd5 [(⟨"a1", "b1", "u1", some "h1", none⟩ : MapItem),
        ⟨"a2", "b2", "u2", some "h2", none⟩]) ∧
    ((⟨"a1", "b1", "u1", some "h1", none⟩ : MapItem) ∈
        dedupByMd5 [(⟨"a1", "b1", "u1", some "h1", none⟩ : MapItem),
          ⟨"a2", "b2", "u2", some "h2", none⟩] ∧
      ∀ h, (⟨"a1", "b1", "u1", some "h1", none⟩ : MapItem).md5 = some h → ¬ h ∈ ["h2"]) :=
  ⟨(resolve_missing_exact [(⟨"a1", "b1", "u1", some "h1", none⟩ : MapItem),
      ⟨"a2", "b2", "u2", some "h2", none⟩] ["h2"]).1,
   ((resolve_missing_exact [(⟨"a1", "b1", "u1", some "h1", none⟩ : MapItem),
      ⟨"a2", "b2", "u2", some "h2", none⟩] ["h2"]).2
      ⟨"a1", "b1", "u1", some "h1", none⟩).1 (by decide)⟩

/-! ### Helper lemmas about the extractor and the pipeline gate -/

theorem extractPass_eq (extractOK : String → Bool) :
    ∀ l : List String, extractPass extractOK l = (l.filter extractOK).map splitextRoot := by
  intro l
  induction l with
  | nil => rfl
  | cons a rest ih =>
    by_cases h : extractOK a
    · simp [extractPass, h, ih]
    · simp [extractPass, h, ih]

theorem deletePass_eq_diff :
    ∀ (toDelete files : List String), deletePass files toDelete = files.diff toDelete := by
  intro toDelete
  induction toDelete with
  | nil => intro files; rfl
  | cons a rest ih =>
    intro files
    rw [deletePass, ih, List.diff_cons]

theorem diff_self_filter (files : List String) (p : String → Bool) (hnd : files.Nodup) :
    files.diff (files.filter p) = files.filter (fun f => ! p f) := by
  rw [hnd.diff_eq_filter]
  refine List.filter_congr ?_
  intro f hf
  by_cases hp : p f
  · simp [List.mem_filter, hf, hp]
  · simp [List.mem_filter, hp]

/-! ### Claim theorems: extractor and pipeline -/

/-- Claim C8: the extractor snapshots the archives present at the start, runs a
full extraction pass first, and with `delete_after` removes exactly the
initially present archives — a result independent of which extractions
succeeded; extraction folders are the stems of the archives whose extraction
succeeded, identical with or without deletion; and without deletion no file
is removed.  The function is total, so no per-archive failure escapes the
batch. -/
theorem extractor_two_pass (files : List String) (extractOK : String → Bool)
    (hnd : files.Nodup) :
    (extract_osz_files files extractOK true).files =
      files.filter (fun f => ! isOszName f) ∧
    (extract_osz_files files extractOK true).folders =
      ((files.filter isOszName).filter extractOK).map splitextRoot ∧
    (extract_osz_files files extractOK false).files = files ∧
    (extract_osz_files files extractOK false).folders =
      (extract_osz_files files extractOK true).folders := by
  refine ⟨?_, ?_, rfl, rfl⟩
  · show deletePass files (files.filter isOszName) = _
    rw [deletePass_eq_diff, diff_self_filter files isOszName hnd]
  · show extractPass extractOK (files.filter isOszName) = _
    rw [extractPass_eq]

/-- Claim C8 (witness): a directory with one valid archive, one corrupt
archive and one non-archive: the deletion pass removes exactly the two
archives although only one extracted, and one extraction folder is
produced. -/
theorem extractor_two_pass_witness :
    (extract_osz_files ["good.osz", "bad.osz", "n.txt"] (fun f => f == "good.osz") true).files =
      ["good.osz", "bad.osz", "n.txt"].filter (fun f => ! isOszName f) ∧
    (extract_osz_files ["good.osz", "bad.osz", "n.txt"] (fun f => f == "good.osz") true).folders =
      ((["good.osz", "bad.osz", "n.txt"].filter isOszName).filter
        (fun f => f == "good.osz")).map splitextRoot ∧
    (extract_osz_files ["good.osz", "bad.osz", "n.txt"] (fun f => f == "good.osz") false).files =
      ["good.osz", "bad.osz", "n.txt"] ∧
    (extract_osz_files ["good.osz", "bad.osz", "n.txt"] (fun f => f == "good.osz") false).folders =
      (extract_osz_files ["good.osz", "bad.osz", "n.txt"] (fun f => f == "good.osz") true).folders :=
  extractor_two_pass ["good.osz", "bad.osz", "n.txt"] (fun f => f == "good.osz") (by decide)

/-- Claim C9: an empty inventory — database file missing, or present but with
no hashes — makes the pipeline abort before any catalog fetch (the fetched
URL list is empty) and download nothing (the result is never `ran`); the
missing-database case and the empty-database case produce identical
results. -/
theorem empty_inventory_aborts (dbExists : Bool) (dbHashes : List String)
    (selected_tables : List String) (fetch : String → Option (List MapItem))
    (level_ranges_int : List (String × Int × Int)) (confirm : Bool)
    (hempty : dbExists = false ∨ dbHashes = []) :
    start_download dbExists dbHashes selected_tables fetch level_ranges_int confirm =
      (.abortedNoInventory, []) ∧
    start_download false dbHashes selected_tables fetch level_ranges_int confirm =
      start_download true [] selected_tables fetch level_ranges_int confirm ∧
    ∀ worklist, ¬ (start_download dbExists dbHashes selected_tables fetch
        level_ranges_int confirm).1 = .ran worklist := by
  have h1 : start_download dbExists dbHashes selected_tables fetch level_ranges_int confirm =
      (.abortedNoInventory, []) := by
    rcases hempty with rfl | rfl
    · simp [start_download, get_existing_md5]
    · cases dbExists <;> simp [start_download, get_existing_md5]
  refine ⟨h1, ?_, ?_⟩
  · simp [start_download, get_existing_md5]
  · intro worklist
    rw [h1]
    simp

/-- Claim C9 (witness): with the database present but containing no hashes, a
run over the 4K table aborts with no fetch, identically to a missing
database. -/
theorem empty_inventory_aborts_witness :
    start_download true [] ["4K"] (fun u => some [⟨"t", "a", u, some "h", some 3⟩])
        [("4K", (0, 13))] true = (.abortedNoInventory, []) ∧
    start_download false [] ["4K"] (fun u => some [⟨"t", "a", u, some "h", some 3⟩])
        [("4K", (0, 13))] true =
      start_download true [] ["4K"] (fun u => some [⟨"t", "a", u, some "h", some 3⟩])
        [("4K", (0, 13))] true ∧
    ∀ worklist, ¬ (start_download true [] ["4K"]
        (fun u => some [⟨"t", "a", u, some "h", some 3⟩]) [("4K", (0, 13))] true).1 =
      .ran worklist :=
  empty_inventory_aborts true [] ["4K"] (fun u => some [⟨"t", "a", u, some "h", some 3⟩])
    [("4K", (0, 13))] true (Or.inr rfl)

end OsuTable
